import Mathlib

/-!
Shallow embedding of the core business logic of the respike backend
(subscription lifecycle, wallet ledger, commission split, payment
verification, video-progress gating) together with proofs about it.

Monetary amounts are modelled as exact rationals; JavaScript
`Math.round` is modelled as `⌊x + 1/2⌋` (round half toward +∞), which is
its behaviour on all inputs relevant here.
-/

namespace Respike

/-! ## Wallet ledger: commission split (wallets.service, `calculateCommissionSplit`) -/

/-- JavaScript `Math.round`: round half toward positive infinity. -/
def jsRound (q : ℚ) : ℤ := ⌊q + 1/2⌋

/-- `Math.round(x * 100) / 100`: round to 2 decimal places. -/
def round2 (q : ℚ) : ℚ := (jsRound (q * 100) : ℚ) / 100

structure CommissionSplit where
  coachAmount : ℚ
  systemAmount : ℚ
  percentage : ℚ
  deriving Repr, DecidableEq

/-- Embeds `WalletsService.calculateCommissionSplit` (wallets.service lines
184–193): `coachAmount = (totalAmount * commissionPercentage) / 100`,
`systemAmount = totalAmount - coachAmount`, and **both** components are
rounded to 2 decimals before being returned. -/
def calculateCommissionSplit (totalAmount commissionPercentage : ℚ) : CommissionSplit :=
  let coachAmount := totalAmount * commissionPercentage / 100
  let systemAmount := totalAmount - coachAmount
  { coachAmount := round2 coachAmount
    systemAmount := round2 systemAmount
    percentage := commissionPercentage }

theorem jsRound_div_100 (q : ℚ) : round2 q = (⌊q * 100 + 1/2⌋ : ℚ) / 100 := rfl

lemma floor_half_lt (f : ℚ) (h0 : 0 ≤ f) (h : f < 1/2) : ⌊f + 1/2⌋ = 0 := by
  apply Int.floor_eq_iff.mpr
  constructor
  · push_cast; linarith
  · push_cast; linarith

lemma floor_half_ge (f : ℚ) (h : 1/2 < f) (h1 : f < 1) : ⌊f + 1/2⌋ = 1 := by
  apply Int.floor_eq_iff.mpr
  constructor
  · push_cast; linarith
  · push_cast; linarith

lemma floor_half_sub_lt (f : ℚ) (h0 : 0 ≤ f) (h : f < 1/2) : ⌊(1:ℚ)/2 - f⌋ = 0 := by
  apply Int.floor_eq_iff.mpr
  constructor
  · push_cast; linarith
  · push_cast; linarith

lemma floor_half_sub_ge (f : ℚ) (h : 1/2 < f) (h1 : f < 1) : ⌊(1:ℚ)/2 - f⌋ = -1 := by
  apply Int.floor_eq_iff.mpr
  constructor
  · push_cast; linarith
  · push_cast; linarith

/-- Key rounding identity: if `x` is not exactly midway between two
integers, then `⌊x + 1/2⌋ + ⌊1/2 - x⌋ = 0`. -/
lemma jsRound_add_jsRound_neg (x : ℚ) (hx : Int.fract x ≠ 1/2) :
    ⌊x + 1/2⌋ + ⌊(1:ℚ)/2 - x⌋ = 0 := by
  obtain ⟨m, f, hf0, hf1, rfl⟩ : ∃ (m : ℤ) (f : ℚ), 0 ≤ f ∧ f < 1 ∧ x = (m : ℚ) + f :=
    ⟨⌊x⌋, Int.fract x, Int.fract_nonneg x, Int.fract_lt_one x,
      by rw [Int.floor_add_fract]⟩
  have hfx : Int.fract ((m : ℚ) + f) = f := by
    rw [Int.fract_int_add, Int.fract_eq_self.mpr ⟨hf0, hf1⟩]
  rw [hfx] at hx
  have h1 : (m : ℚ) + f + 1/2 = (m : ℚ) + (f + 1/2) := by ring
  have h2 : (1:ℚ)/2 - ((m : ℚ) + f) = ((-m : ℤ) : ℚ) + ((1:ℚ)/2 - f) := by
    push_cast; ring
  rw [h1, h2, Int.floor_int_add, Int.floor_int_add]
  rcases lt_or_gt_of_ne hx with hlt | hgt
  · rw [floor_half_lt f hf0 hlt, floor_half_sub_lt f hf0 hlt]; ring
  · rw [floor_half_ge f hgt hf1, floor_half_sub_ge f hgt hf1]; ring

/-- C1 counterexample: at `totalAmount = 0.03`, `pct = 50` the code returns
`coachAmount = 0.02` and `systemAmount = 0.02` (both independently rounded),
so `systemAmount ≠ totalAmount - coachAmount` and
`coachAmount + systemAmount = 0.04 ≠ 0.03`: the claimed exactness fails. -/
theorem calculateCommissionSplit_claim_counterexample :
    (calculateCommissionSplit (3/100) 50).coachAmount = 2/100 ∧
    (calculateCommissionSplit (3/100) 50).systemAmount = 2/100 ∧
    (calculateCommissionSplit (3/100) 50).systemAmount
        ≠ 3/100 - (calculateCommissionSplit (3/100) 50).coachAmount ∧
    (calculateCommissionSplit (3/100) 50).coachAmount
        + (calculateCommissionSplit (3/100) 50).systemAmount ≠ 3/100 := by
  norm_num [calculateCommissionSplit, round2, jsRound]

/-- C1 (amended): `calculateCommissionSplit` rounds `coachAmount` **and**
`systemAmount` each independently to 2 decimals.  The split is exact
(`coachAmount + systemAmount = totalAmount`) whenever `100·totalAmount` is an
integer (a whole number of cents) and `totalAmount × pct / 100` is not exactly
midway between two cents. -/
theorem calculateCommissionSplit_exact (t p : ℚ)
    (ht : ∃ n : ℤ, (n : ℚ) = 100 * t) (hp : Int.fract (t * p) ≠ 1/2) :
    (calculateCommissionSplit t p).coachAmount
      + (calculateCommissionSplit t p).systemAmount = t := by
  obtain ⟨n, hn⟩ := ht
  have key := jsRound_add_jsRound_neg (t * p) hp
  have keyQ : (⌊t * p + 1/2⌋ : ℚ) + (⌊(1:ℚ)/2 - t * p⌋ : ℚ) = 0 := by
    exact_mod_cast key
  simp only [calculateCommissionSplit, round2, jsRound]
  have e1 : t * p / 100 * 100 + 1/2 = t * p + 1/2 := by ring
  have e2 : (t - t * p / 100) * 100 + 1/2 = (n : ℚ) + ((1:ℚ)/2 - t * p) := by
    rw [hn]; ring
  rw [e1, e2, Int.floor_int_add]
  push_cast
  linear_combination keyQ / 100 + hn / 100

/-- Witness for `calculateCommissionSplit_exact` at `(10, 30)`:
the split is `(3, 7)` and sums back to `10`. -/
theorem calculateCommissionSplit_exact_witness :
    (∃ n : ℤ, (n : ℚ) = 100 * 10) ∧ Int.fract ((10:ℚ) * 30) ≠ 1/2 ∧
    (calculateCommissionSplit 10 30).coachAmount
      + (calculateCommissionSplit 10 30).systemAmount = 10 :=
  ⟨⟨1000, by norm_num⟩, by norm_num [Int.fract],
    calculateCommissionSplit_exact 10 30 ⟨1000, by norm_num⟩
      (by norm_num [Int.fract])⟩

/-! ## Wallet ledger: transactions (wallets.service, `addTransaction`) -/

inductive TransactionType where
  | CREDIT
  | DEBIT
  deriving Repr, DecidableEq

structure Wallet where
  balance : ℚ
  totalEarned : ℚ
  deriving Repr, DecidableEq

structure WalletTransaction where
  type : TransactionType
  amount : ℚ
  balanceBefore : ℚ
  balanceAfter : ℚ
  deriving Repr, DecidableEq

/-- A wallet as created by `getOrCreateWallet`: zero balance, zero
`totalEarned`. -/
def newWallet : Wallet := { balance := 0, totalEarned := 0 }

/-- Embeds `WalletsService.addTransaction` (wallets.service lines 129–179):
reads the current balance, computes `balanceAfter` from the transaction type
(CREDIT adds, DEBIT subtracts), writes a transaction row carrying the
`balanceBefore`/`balanceAfter` snapshot pair, then updates the wallet's
`balance` to `balanceAfter` and increments `totalEarned` on CREDIT only. -/
def addTransaction (w : Wallet) (type : TransactionType) (amount : ℚ) :
    Wallet × WalletTransaction :=
  let balanceBefore := w.balance
  let balanceAfter :=
    match type with
    | .CREDIT => balanceBefore + amount
    | .DEBIT => balanceBefore - amount
  let tx : WalletTransaction :=
    { type := type, amount := amount
      balanceBefore := balanceBefore, balanceAfter := balanceAfter }
  let w' : Wallet :=
    { balance := balanceAfter
      totalEarned :=
        match type with
        | .CREDIT => w.totalEarned + amount
        | .DEBIT => w.totalEarned }
  (w', tx)

/-- A sequence of `addTransaction` calls against one wallet, collecting the
written transaction records. -/
def applyTransactions (w : Wallet) :
    List (TransactionType × ℚ) → Wallet × List WalletTransaction
  | [] => (w, [])
  | (type, amount) :: rest =>
      let step := addTransaction w type amount
      let next := applyTransactions step.1 rest
      (next.1, step.2 :: next.2)

/-- Sum of the amounts of the CREDIT operations in a sequence. -/
def creditSum (ops : List (TransactionType × ℚ)) : ℚ :=
  ((ops.filter (fun op => op.1 == TransactionType.CREDIT)).map (fun op => op.2)).sum

/-- Sum of the amounts of the DEBIT operations in a sequence. -/
def debitSum (ops : List (TransactionType × ℚ)) : ℚ :=
  ((ops.filter (fun op => op.1 == TransactionType.DEBIT)).map (fun op => op.2)).sum

/-- Paired-snapshot property of a written transaction record. -/
def txConsistent (tx : WalletTransaction) : Prop :=
  tx.balanceAfter =
    match tx.type with
    | .CREDIT => tx.balanceBefore + tx.amount
    | .DEBIT => tx.balanceBefore - tx.amount

lemma applyTransactions_invariants (ops : List (TransactionType × ℚ)) :
    ∀ w : Wallet,
      (applyTransactions w ops).2.Forall txConsistent
      ∧ (applyTransactions w ops).1.balance
          = w.balance + creditSum ops - debitSum ops
      ∧ (applyTransactions w ops).1.totalEarned
          = w.totalEarned + creditSum ops := by
  induction ops with
  | nil =>
      intro w
      simp [applyTransactions, creditSum, debitSum]
  | cons op rest ih =>
      intro w
      obtain ⟨t, a⟩ := op
      obtain ⟨ihForall, ihBal, ihEarned⟩ := ih (addTransaction w t a).1
      refine ⟨?_, ?_, ?_⟩
      · rw [show (applyTransactions w ((t, a) :: rest)).2
              = (addTransaction w t a).2
                  :: (applyTransactions (addTransaction w t a).1 rest).2 from rfl,
            List.forall_cons]
        exact ⟨by cases t <;> simp [addTransaction, txConsistent], ihForall⟩
      · rw [show (applyTransactions w ((t, a) :: rest)).1
              = (applyTransactions (addTransaction w t a).1 rest).1 from rfl, ihBal]
        cases t <;> simp [addTransaction, creditSum, debitSum] <;> ring
      · rw [show (applyTransactions w ((t, a) :: rest)).1
              = (applyTransactions (addTransaction w t a).1 rest).1 from rfl, ihEarned]
        cases t <;> simp [addTransaction, creditSum, debitSum] <;> ring

/-- C3: after any sequence of `addTransaction` calls on a freshly created
wallet, every written transaction satisfies
`balanceAfter = balanceBefore + amount` (CREDIT) or
`balanceAfter = balanceBefore - amount` (DEBIT), the wallet's balance equals
the sum of CREDIT amounts minus the sum of DEBIT amounts, and `totalEarned`
equals the sum of CREDIT amounts alone (it increases only on CREDIT). -/
theorem addTransaction_ledger_invariants (ops : List (TransactionType × ℚ)) :
    (applyTransactions newWallet ops).2.Forall txConsistent
    ∧ (applyTransactions newWallet ops).1.balance = creditSum ops - debitSum ops
    ∧ (applyTransactions newWallet ops).1.totalEarned = creditSum ops := by
  obtain ⟨h1, h2, h3⟩ := applyTransactions_invariants ops newWallet
  refine ⟨h1, ?_, ?_⟩
  · rw [h2]; simp [newWallet]
  · rw [h3]; simp [newWallet]

/-! ## Subscription data model (subscription.interface.ts) -/

inductive SubscriptionStatus where
  | ACTIVE
  | PENDING
  | EXPIRED
  | CANCELLED
  deriving Repr, DecidableEq

structure Subscription where
  id : String
  userId : String
  strategyId : String
  strategyName : String
  strategyPrice : ℚ
  status : SubscriptionStatus
  startDate : ℤ
  endDate : Option ℤ
  duration : ℚ
  videoProgress : List String
  completedVideos : List String
  totalVideos : ℕ
  progressPercentage : ℤ
  currentVideoId : Option String
  amountPaid : ℚ
  renewalCount : ℕ
  expiredAt : Option ℤ
  deriving Repr, DecidableEq

/-! ## Expiry sweep (subscriptions.service, `checkExpiredSubscriptions`) -/

/-- The batch update the sweep applies to one expired subscription
(subscriptions.service lines 517–522): status becomes PENDING and
`expiredAt` is set to the server timestamp; `completedVideos` is
intentionally not modified. -/
def expireUpdate (now : ℤ) (s : Subscription) : Subscription :=
  { s with status := .PENDING, expiredAt := some now }

/-- Embeds `SubscriptionsService.checkExpiredSubscriptions` (lines 499–534):
queries subscriptions with status ACTIVE, collects a batch update for each
whose `endDate` is present and strictly before `now`, and commits the batch;
batch updates are matched to documents by id. -/
def checkExpiredSubscriptions (now : ℤ) (subs : List Subscription) :
    List Subscription :=
  let active := subs.filter (fun s => s.status == SubscriptionStatus.ACTIVE)
  let batch := active.filter (fun s =>
    match s.endDate with
    | some e => decide (e < now)
    | none => false)
  subs.map (fun s =>
    if batch.any (fun t => t.id == s.id) then expireUpdate now s else s)

/-- The sweep's expiry condition, stated as the claim states it. -/
def expiredNow (now : ℤ) (s : Subscription) : Prop :=
  s.status = .ACTIVE ∧ ∃ e, s.endDate = some e ∧ e < now

/-- C9: `checkExpiredSubscriptions` transitions exactly the subscriptions
that are ACTIVE with `endDate` strictly before `now`: each of those becomes
PENDING with `expiredAt` set (and nothing else changed), and every other
subscription is left unchanged. -/
theorem checkExpiredSubscriptions_spec (now : ℤ) (subs : List Subscription)
    (hids : (subs.map (fun s => s.id)).Nodup) :
    List.Forall₂ (fun s s' =>
        (expiredNow now s → s' = expireUpdate now s)
        ∧ (¬ expiredNow now s → s' = s))
      subs (checkExpiredSubscriptions now subs) := by
  rw [checkExpiredSubscriptions]
  rw [List.forall₂_map_right_iff, List.forall₂_same]
  intro s hs
  have hmem : (List.filter
        (fun s => match s.endDate with
          | some e => decide (e < now)
          | none => false)
        (subs.filter (fun s => s.status == SubscriptionStatus.ACTIVE))).any
        (fun t => t.id == s.id) = true ↔ expiredNow now s := by
    constructor
    · intro h
      obtain ⟨t, ht, hid⟩ := List.any_eq_true.mp h
      have ht1 := List.mem_filter.mp ht
      have ht2 := List.mem_filter.mp ht1.1
      have hts : t = s :=
        List.inj_on_of_nodup_map hids ht2.1 hs (eq_of_beq hid)
      subst hts
      refine ⟨by simpa using ht2.2, ?_⟩
      rcases he : t.endDate with _ | e
      · rw [he] at ht1; simp at ht1
      · rw [he] at ht1
        exact ⟨e, rfl, by simpa using ht1.2⟩
    · rintro ⟨hact, e, he, hlt⟩
      apply List.any_eq_true.mpr
      refine ⟨s, ?_, by simp⟩
      apply List.mem_filter.mpr
      refine ⟨List.mem_filter.mpr ⟨hs, by simpa using hact⟩, ?_⟩
      rw [he]
      simpa using hlt
  by_cases hexp : expiredNow now s
  · rw [if_pos (hmem.mpr hexp)]
    exact ⟨fun _ => rfl, fun h => absurd hexp h⟩
  · rw [if_neg (fun h => hexp (hmem.mp h))]
    exact ⟨fun h => absurd h hexp, fun _ => rfl⟩

/-- A concrete two-subscription store: one expired ACTIVE subscription and
one PENDING one. -/
def sweepWitnessStore : List Subscription :=
  [{ id := "a", userId := "u1", strategyId := "s1", strategyName := "S1",
     strategyPrice := 100, status := SubscriptionStatus.ACTIVE,
     startDate := 0, endDate := some 5, duration := 30,
     videoProgress := [], completedVideos := ["v1"], totalVideos := 1,
     progressPercentage := 100, currentVideoId := none, amountPaid := 100,
     renewalCount := 0, expiredAt := none },
   { id := "b", userId := "u2", strategyId := "s1", strategyName := "S1",
     strategyPrice := 100, status := SubscriptionStatus.PENDING,
     startDate := 0, endDate := some 5, duration := 30,
     videoProgress := [], completedVideos := [], totalVideos := 1,
     progressPercentage := 0, currentVideoId := none, amountPaid := 100,
     renewalCount := 0, expiredAt := none }]

/-- Witness for `checkExpiredSubscriptions_spec` on `sweepWitnessStore`. -/
theorem checkExpiredSubscriptions_spec_witness :
    (sweepWitnessStore.map (fun s => s.id)).Nodup
    ∧ List.Forall₂ (fun s s' =>
        (expiredNow 10 s → s' = expireUpdate 10 s)
        ∧ (¬ expiredNow 10 s → s' = s))
      sweepWitnessStore (checkExpiredSubscriptions 10 sweepWitnessStore) := by
  constructor
  · decide
  · exact checkExpiredSubscriptions_spec 10 sweepWitnessStore (by decide)

/-! ## Renewal / upgrade / downgrade charging
(subscriptions.service, `renewSubscription` and `upgradeUserSubscription`) -/

/-- Embeds the charging logic of `SubscriptionsService.renewSubscription`
(lines 277–301): the default amount is the admin's `customAmount`, or $100;
when a different `newStrategyId` is supplied the amount becomes the price
difference `newPrice - currentPrice` when positive and `0` otherwise. -/
def renewAmountPaid (customAmount : Option ℚ) (newStrategyId : Option String)
    (currentStrategyId : String) (currentPrice newPrice : ℚ) : ℚ :=
  let base := match customAmount with | some c => c | none => 100
  match newStrategyId with
  | some nsId =>
      if nsId ≠ currentStrategyId then
        let priceDifference := newPrice - currentPrice
        if priceDifference > 0 then priceDifference else 0
      else base
  | none => base

/-- Embeds the charging logic of
`SubscriptionsService.upgradeUserSubscription` (lines 953–991): with
`priceDifference = |newPrice - currentPrice|`, a same-price change switches
strategy with no payment (`none`); otherwise a downgrade
(`newPrice < currentPrice`) charges the new strategy's full price and an
upgrade charges the price difference. -/
def upgradeUserAmountToPay (currentPrice newPrice : ℚ) : Option ℚ :=
  let priceDifference := |newPrice - currentPrice|
  if newPrice = currentPrice then none
  else
    let isDowngrade := newPrice < currentPrice
    some (if isDowngrade then newPrice else priceDifference)

/-- C5 counterexample: a downgrade from a $150 strategy to a $50 strategy via
the admin renewal path (`renewSubscription` with a new, cheaper strategy)
charges $0 — the clamped price difference — not the new strategy's full $50
price, so the claim fails on that code path. -/
theorem downgrade_charge_claim_counterexample :
    renewAmountPaid none (some "s2") "s1" 150 50 = 0 ∧
    renewAmountPaid none (some "s2") "s1" 150 50 ≠ 50 := by
  constructor
  · show (if ("s2" : String) ≠ "s1" then
        if (50 : ℚ) - 150 > 0 then (50 : ℚ) - 150 else 0
      else 100) = 0
    rw [if_pos (by decide)]
    norm_num
  · show (if ("s2" : String) ≠ "s1" then
        if (50 : ℚ) - 150 > 0 then (50 : ℚ) - 150 else 0
      else 100) ≠ 50
    rw [if_pos (by decide)]
    norm_num

/-- C5 (amended): when the new strategy is strictly cheaper, the user-panel
path (`upgradeUserSubscription`) charges the new strategy's full price, but
the admin renewal path (`renewSubscription` with a new strategy) charges
the clamped price difference, which is `0` for a downgrade. -/
theorem downgrade_charge_amended (currentPrice newPrice : ℚ)
    (h : newPrice < currentPrice) (cust : Option ℚ) (nsId csId : String)
    (hne : nsId ≠ csId) :
    upgradeUserAmountToPay currentPrice newPrice = some newPrice
    ∧ renewAmountPaid cust (some nsId) csId currentPrice newPrice = 0 := by
  constructor
  · simp only [upgradeUserAmountToPay]
    rw [if_neg (ne_of_lt h), if_pos h]
  · simp only [renewAmountPaid]
    rw [if_pos hne, if_neg (by linarith)]

/-- Witness for `downgrade_charge_amended` at a $150 → $50 downgrade. -/
theorem downgrade_charge_amended_witness :
    (50 : ℚ) < 150 ∧ ("s2" : String) ≠ "s1" ∧
    (upgradeUserAmountToPay 150 50 = some 50
      ∧ renewAmountPaid none (some "s2") "s1" 150 50 = 0) :=
  ⟨by norm_num, by decide,
    downgrade_charge_amended 150 50 (by norm_num) none "s2" "s1" (by decide)⟩

/-! ## Strategy-change updates and `completedVideos`
(subscriptions.service: sweep, `setPendingSubscription`,
`renewSubscription` new-strategy branch, `upgradeUserSubscription`
same-price switch) -/

/-- Embeds `SubscriptionsService.setPendingSubscription` (lines 460–478):
status becomes PENDING and `expiredAt` is set; `completedVideos` is
intentionally not modified. -/
def setPendingUpdate (now : ℤ) (s : Subscription) : Subscription :=
  { s with status := .PENDING, expiredAt := some now }

/-- Embeds the new-strategy branch of `renewSubscription` (lines 319–338):
strategy fields are replaced, status becomes ACTIVE, `completedVideos` is
reset to the empty array and the video snapshot is replaced. -/
def renewNewStrategyUpdate (s : Subscription) (newStrategyId newStrategyName : String)
    (newPrice : ℚ) (newVideos : List String) (startDate : ℤ) (endDate : ℤ)
    (duration : ℚ) (amountPaid : ℚ) : Subscription :=
  { s with strategyId := newStrategyId, strategyName := newStrategyName,
           strategyPrice := newPrice, status := .ACTIVE,
           startDate := startDate, endDate := some endDate,
           duration := duration, videoProgress := newVideos,
           completedVideos := [], totalVideos := newVideos.length,
           progressPercentage := 0, currentVideoId := newVideos.head?,
           amountPaid := amountPaid, renewalCount := s.renewalCount + 1 }

/-- Embeds the same-price strategy-switch update of
`upgradeUserSubscription` (lines 959–979): when the new strategy's price
equals the current one, only the strategy identity fields are updated — the
update does **not** touch `completedVideos`. -/
def samePriceSwitchUpdate (s : Subscription) (newStrategyId newStrategyName : String)
    (newPrice : ℚ) : Subscription :=
  { s with strategyId := newStrategyId, strategyName := newStrategyName,
           strategyPrice := newPrice }

/-- A subscription to strategy `s1` with one completed video. -/
def c6Sub : Subscription :=
  { id := "sub1", userId := "u1", strategyId := "s1", strategyName := "S1",
    strategyPrice := 100, status := SubscriptionStatus.ACTIVE,
    startDate := 0, endDate := some 100, duration := 30,
    videoProgress := ["v1", "v2"], completedVideos := ["v1"], totalVideos := 2,
    progressPercentage := 50, currentVideoId := some "v2", amountPaid := 100,
    renewalCount := 0, expiredAt := none }

/-- C6: the ACTIVE→PENDING transitions (sweep, admin set-pending) preserve
`completedVideos` and the new-strategy renewal resets it, but the same-price
strategy switch of `upgradeUserSubscription` changes `strategyId` while
leaving a non-empty `completedVideos` intact — contradicting the claim that
every strategyId-changing transition resets it to the empty set. -/
theorem samePriceSwitch_keeps_completedVideos :
    (expireUpdate 100 c6Sub).completedVideos = c6Sub.completedVideos
    ∧ (setPendingUpdate 100 c6Sub).completedVideos = c6Sub.completedVideos
    ∧ (renewNewStrategyUpdate c6Sub "s2" "S2" 100 ["w1"] 0 100 30 0).completedVideos = []
    ∧ (samePriceSwitchUpdate c6Sub "s2" "S2" 100).strategyId ≠ c6Sub.strategyId
    ∧ (samePriceSwitchUpdate c6Sub "s2" "S2" 100).completedVideos = ["v1"] := by
  refine ⟨rfl, rfl, rfl, by decide, rfl⟩

/-! ## Payment verification (threepay.service, `verifyCallback`) -/

structure ThreePayTransactionData where
  status : String
  actualBalance : Option ℚ
  amount : Option ℚ
  deriving Repr, DecidableEq

structure VerifyCallbackResult where
  isValid : Bool
  isPaid : Bool
  deriving Repr, DecidableEq

/-- The "completed"-class statuses accepted by `verifyCallback`
(threepay.service lines 159–162). -/
def statusComplete (status : String) : Bool :=
  status == "completed" || status == "success" || status == "paid"
    || status == "confirmed"

/-- Embeds `ThreePayService.verifyCallback` (threepay.service lines
125–188).  The function never trusts webhook payload fields: it re-fetches
the transaction from the provider via `getTransaction`, and its input here
is that fetched state — `none` covers both a fetch error and a response
carrying no transaction data.  `isPaid` requires a "completed"-class status
AND `actualBalance ≥ amount` (each field defaulting to 0 when absent). -/
def verifyCallback (fetched : Option ThreePayTransactionData) :
    VerifyCallbackResult :=
  match fetched with
  | none => { isValid := false, isPaid := false }
  | some d =>
      let actualBalance := d.actualBalance.getD 0
      let amount := d.amount.getD 0
      let isPaid := statusComplete d.status && decide (actualBalance ≥ amount)
      { isValid := true, isPaid := isPaid }

/-- C7: `verifyCallback` reports `isPaid = true` iff the state re-fetched
from the provider exists, carries a "completed"-class status
(completed/success/paid/confirmed), and shows an actual received balance of
at least the expected amount; in every other case — including a fetch
failure or a response without transaction data — `isPaid = false`. -/
theorem verifyCallback_isPaid_iff (fetched : Option ThreePayTransactionData) :
    (verifyCallback fetched).isPaid = true ↔
      ∃ d, fetched = some d
        ∧ (d.status = "completed" ∨ d.status = "success" ∨ d.status = "paid"
            ∨ d.status = "confirmed")
        ∧ d.amount.getD 0 ≤ d.actualBalance.getD 0 := by
  cases fetched with
  | none => simp [verifyCallback]
  | some d =>
      simp [verifyCallback, statusComplete, Bool.or_eq_true, beq_iff_eq,
        ge_iff_le, decide_eq_true_iff, or_assoc]

/-! ## Video access gating (subscriptions.service, `validateVideoAccess`
and `markVideoComplete`) -/

structure StrategyVideo where
  id : String
  strategyId : String
  isVisible : Bool
  order : ℤ
  title : String
  deriving Repr, DecidableEq

/-- The database environment the video-gating code reads: a point lookup of
a video document by id, and the query `strategyVideos where strategyId ==
sid and isVisible == true orderBy order asc`, whose result list the code
indexes into. -/
structure VideoEnv where
  lookup : String → Option StrategyVideo
  queryVisibleOrdered : String → List StrategyVideo

structure AccessDecision where
  canAccess : Bool
  reason : String
  deriving Repr, DecidableEq

/-- Embeds `SubscriptionsService.validateVideoAccess` (subscriptions.service
lines 1601–1702).  Platform administrators are granted access immediately;
otherwise the user needs an ACTIVE subscription, the video must exist,
belong to the subscribed strategy and be visible, and the video is
accessible iff it is first in the strategy's ordered visible list or the
previous video's id is in `completedVideos`. -/
def validateVideoAccess (env : VideoEnv) (isAdmin : Bool)
    (activeSub : Option Subscription) (videoId : String) : AccessDecision :=
  if isAdmin then { canAccess := true, reason := "Admin access" }
  else
    match activeSub with
    | none => { canAccess := false, reason := "No active subscription" }
    | some subscription =>
        if subscription.status ≠ .ACTIVE then
          { canAccess := false, reason := "No active subscription" }
        else
          match env.lookup videoId with
          | none => { canAccess := false, reason := "Video not found" }
          | some videoData =>
              if videoData.strategyId ≠ subscription.strategyId then
                { canAccess := false
                  reason := "Video does not belong to your subscribed strategy" }
              else if !videoData.isVisible then
                { canAccess := false, reason := "Video is not available" }
              else
                let videos := env.queryVisibleOrdered subscription.strategyId
                match videos.findIdx? (fun v => v.id == videoId) with
                | none =>
                    { canAccess := false, reason := "Video not found in strategy" }
                | some videoIndex =>
                    if videoIndex == 0 then
                      { canAccess := true, reason := "First video" }
                    else
                      match videos[videoIndex - 1]? with
                      | none =>
                          { canAccess := false
                            reason := "Video not found in strategy" }
                      | some previousVideo =>
                          if subscription.completedVideos.contains previousVideo.id
                          then
                            { canAccess := true
                              reason := "Previous videos completed" }
                          else
                            { canAccess := false
                              reason := "You must complete the previous video first" }

inductive MarkVideoResult where
  | ok (subscription : Subscription) (wrote : Bool)
  | badRequest (msg : String)
  | notFound (msg : String)
  deriving Repr, DecidableEq

/-- Embeds `SubscriptionsService.markVideoComplete` (subscriptions.service
lines 1542–1596): requires an ACTIVE subscription, an existing video of the
subscribed strategy, and a passing `validateVideoAccess`; then appends the
video id to `completedVideos` and recomputes `progressPercentage` — but only
if the id is not already present (otherwise no write happens), and returns
success either way. -/
def markVideoComplete (env : VideoEnv) (isAdmin : Bool)
    (activeSub : Option Subscription) (videoId : String) : MarkVideoResult :=
  match activeSub with
  | none => .badRequest "No active subscription found"
  | some subscription =>
      if subscription.status ≠ .ACTIVE then
        .badRequest "No active subscription found"
      else
        match env.lookup videoId with
        | none => .notFound "Video not found"
        | some videoData =>
            if videoData.strategyId ≠ subscription.strategyId then
              .badRequest "Video does not belong to your subscribed strategy"
            else
              let accessValidation :=
                validateVideoAccess env isAdmin (some subscription) videoId
              if !accessValidation.canAccess then
                .badRequest "You must complete previous videos first"
              else
                let completedVideos := subscription.completedVideos
                if !(completedVideos.contains videoId) then
                  let completedVideos' := completedVideos ++ [videoId]
                  let totalVideos := subscription.totalVideos
                  let progressPercentage :=
                    if totalVideos > 0 then
                      jsRound ((completedVideos'.length : ℚ) / totalVideos * 100)
                    else 0
                  .ok { subscription with
                        completedVideos := completedVideos'
                        progressPercentage := progressPercentage } true
                else
                  .ok subscription false

/-- In a list whose images under `f` are distinct, `findIdx?` searching for
the image of the element at position `i` finds exactly position `i`. -/
lemma findIdx?_of_nodup_getElem? {α β : Type} [BEq β] [LawfulBEq β] (f : α → β) :
    ∀ (l : List α) (i : ℕ) (v : α), (l.map f).Nodup → l[i]? = some v →
      l.findIdx? (fun w => f w == f v) = some i := by
  intro l
  induction l with
  | nil => intro i v _ h; simp at h
  | cons x t ih =>
      intro i v hnd hv
      rw [List.map_cons, List.nodup_cons] at hnd
      cases i with
      | zero =>
          rw [List.getElem?_cons_zero, Option.some_inj] at hv
          subst hv
          rw [List.findIdx?_cons]
          simp
      | succ j =>
          rw [List.getElem?_cons_succ] at hv
          have hvmem : v ∈ t := by
            have := List.getElem?_eq_some.mp hv
            obtain ⟨hlt, hget⟩ := this
            exact hget ▸ List.getElem_mem hlt
          have hne : (f x == f v) = false := by
            apply beq_eq_false_iff_ne.mpr
            intro heq
            exact hnd.1 (heq ▸ List.mem_map_of_mem f hvmem)
          rw [List.findIdx?_cons, hne]
          simp only [Bool.false_eq_true, if_false, List.findIdx?_succ]
          rw [ih j v hnd.2 hv]
          rfl

/-- C8: for a video `v` sitting at order index `i` of the strategy's ordered
visible video list — under an ACTIVE subscription, with the video document
present, belonging to the subscribed strategy, and visible — access is
granted iff `i = 0` or the video at index `i-1` is in `completedVideos`;
when that gating condition fails, `markVideoComplete` rejects with
BadRequest; and platform administrators bypass all gating. -/
theorem validateVideoAccess_gating (env : VideoEnv) (sub : Subscription)
    (v : StrategyVideo) (i : ℕ)
    (hstatus : sub.status = .ACTIVE)
    (hv : (env.queryVisibleOrdered sub.strategyId)[i]? = some v)
    (hlook : env.lookup v.id = some v)
    (hstrat : v.strategyId = sub.strategyId)
    (hvis : v.isVisible = true)
    (hnd : ((env.queryVisibleOrdered sub.strategyId).map (fun w => w.id)).Nodup) :
    ((validateVideoAccess env false (some sub) v.id).canAccess = true ↔
      (i = 0 ∨ ∃ prev, (env.queryVisibleOrdered sub.strategyId)[i-1]? = some prev
          ∧ prev.id ∈ sub.completedVideos))
    ∧ (∀ (anySub : Option Subscription) (anyId : String),
        (validateVideoAccess env true anySub anyId).canAccess = true)
    ∧ ((validateVideoAccess env false (some sub) v.id).canAccess = false →
        markVideoComplete env false (some sub) v.id
          = .badRequest "You must complete previous videos first") := by
  have hfind := findIdx?_of_nodup_getElem? (fun w => w.id)
    (env.queryVisibleOrdered sub.strategyId) i v hnd hv
  have hstep : validateVideoAccess env false (some sub) v.id =
      (if (i == 0 : Bool) then
        { canAccess := true, reason := "First video" }
       else
         match (env.queryVisibleOrdered sub.strategyId)[i - 1]? with
         | none => { canAccess := false, reason := "Video not found in strategy" }
         | some previousVideo =>
             if sub.completedVideos.contains previousVideo.id then
               { canAccess := true, reason := "Previous videos completed" }
             else
               { canAccess := false
                 reason := "You must complete the previous video first" }) := by
    simp [validateVideoAccess, hstatus, hlook, hstrat, hvis, hfind]
  have hmark : (validateVideoAccess env false (some sub) v.id).canAccess = false →
      markVideoComplete env false (some sub) v.id
        = .badRequest "You must complete previous videos first" := by
    intro hfail
    simp [markVideoComplete, hstatus, hlook, hstrat, hfail]
  refine ⟨?_, fun anySub anyId => rfl, hmark⟩
  cases i with
  | zero =>
      rw [hstep]
      simp
  | succ j =>
      have hilt : j + 1 < (env.queryVisibleOrdered sub.strategyId).length :=
        (List.getElem?_eq_some.mp hv).1
      have hjlt : j < (env.queryVisibleOrdered sub.strategyId).length :=
        Nat.lt_trans (Nat.lt_succ_self j) hilt
      have hprev : (env.queryVisibleOrdered sub.strategyId)[j]?
          = some ((env.queryVisibleOrdered sub.strategyId)[j]) :=
        List.getElem?_eq_getElem hjlt
      rw [hstep]
      simp only [Nat.succ_sub_one, hprev]
      by_cases hin :
          ((env.queryVisibleOrdered sub.strategyId)[j]).id ∈ sub.completedVideos
      · simp only [List.elem_eq_true_of_mem hin]
        constructor
        · intro _
          exact Or.inr ⟨_, rfl, hin⟩
        · intro _
          simp
      · have hc : sub.completedVideos.contains
            ((env.queryVisibleOrdered sub.strategyId)[j]).id = false := by
          simpa using hin
        simp only [hc]
        constructor
        · intro h
          simp at h
        · rintro (h0 | ⟨prev, hpeq, hpmem⟩)
          · exact absurd h0 (Nat.succ_ne_zero j)
          · cases Option.some_inj.mp hpeq
            exact absurd hpmem hin

def gatingVideo1 : StrategyVideo :=
  { id := "v1", strategyId := "s1", isVisible := true, order := 1,
    title := "Video 1" }

def gatingVideo2 : StrategyVideo :=
  { id := "v2", strategyId := "s1", isVisible := true, order := 2,
    title := "Video 2" }

/-- A concrete two-video environment for strategy `s1`. -/
def gatingEnv : VideoEnv :=
  { lookup := fun vid =>
      if vid = "v1" then some gatingVideo1
      else if vid = "v2" then some gatingVideo2
      else none
    queryVisibleOrdered := fun sid =>
      if sid = "s1" then [gatingVideo1, gatingVideo2] else [] }

/-- Witness for `validateVideoAccess_gating`: video `v2` at index 1 under a
subscription whose `completedVideos` is `["v1"]`. -/
theorem validateVideoAccess_gating_witness :
    (c6Sub.status = .ACTIVE
      ∧ (gatingEnv.queryVisibleOrdered c6Sub.strategyId)[1]? = some gatingVideo2
      ∧ gatingEnv.lookup gatingVideo2.id = some gatingVideo2
      ∧ gatingVideo2.strategyId = c6Sub.strategyId
      ∧ gatingVideo2.isVisible = true
      ∧ ((gatingEnv.queryVisibleOrdered c6Sub.strategyId).map
          (fun w => w.id)).Nodup)
    ∧ (((validateVideoAccess gatingEnv false (some c6Sub)
            gatingVideo2.id).canAccess = true ↔
          (1 = 0 ∨ ∃ prev,
            (gatingEnv.queryVisibleOrdered c6Sub.strategyId)[1-1]? = some prev
              ∧ prev.id ∈ c6Sub.completedVideos))
        ∧ (∀ (anySub : Option Subscription) (anyId : String),
            (validateVideoAccess gatingEnv true anySub anyId).canAccess = true)
        ∧ ((validateVideoAccess gatingEnv false (some c6Sub)
              gatingVideo2.id).canAccess = false →
            markVideoComplete gatingEnv false (some c6Sub) gatingVideo2.id
              = .badRequest "You must complete previous videos first")) :=
  ⟨⟨rfl, by decide, by decide, rfl, rfl, by decide⟩,
    validateVideoAccess_gating gatingEnv c6Sub gatingVideo2 1 rfl (by decide)
      (by decide) rfl rfl (by decide)⟩

/-! ## Idempotence of `markVideoComplete` (C10) -/

/-- The subscription state a `markVideoComplete` call leaves behind: the
updated subscription on a successful write, the unchanged one otherwise. -/
def runMarkVideoComplete (env : VideoEnv) (sub : Subscription)
    (videoId : String) : Subscription :=
  match markVideoComplete env false (some sub) videoId with
  | .ok s _ => s
  | _ => sub

/-- Every id in `completedVideos` refers to an existing visible video of the
subscribed strategy, found in the ordered visible list, whose gating
condition is satisfied by the current `completedVideos`. -/
def completedClosed (env : VideoEnv) (sub : Subscription) : Prop :=
  ∀ vid ∈ sub.completedVideos,
    ∃ vd, env.lookup vid = some vd ∧ vd.strategyId = sub.strategyId
      ∧ vd.isVisible = true
      ∧ ∃ i, (env.queryVisibleOrdered sub.strategyId).findIdx?
            (fun w => w.id == vid) = some i
        ∧ (i = 0 ∨ ∃ prev,
            (env.queryVisibleOrdered sub.strategyId)[i-1]? = some prev
              ∧ prev.id ∈ sub.completedVideos)

lemma validateVideoAccess_true_of (env : VideoEnv) (sub : Subscription)
    (vid : String) (hact : sub.status = .ACTIVE) (vd : StrategyVideo)
    (hlook : env.lookup vid = some vd) (hstrat : vd.strategyId = sub.strategyId)
    (hvis : vd.isVisible = true) (i : ℕ)
    (hfind : (env.queryVisibleOrdered sub.strategyId).findIdx?
        (fun w => w.id == vid) = some i)
    (hgate : i = 0 ∨ ∃ prev,
        (env.queryVisibleOrdered sub.strategyId)[i-1]? = some prev
          ∧ prev.id ∈ sub.completedVideos) :
    (validateVideoAccess env false (some sub) vid).canAccess = true := by
  have hstep : validateVideoAccess env false (some sub) vid =
      (if (i == 0 : Bool) then
        { canAccess := true, reason := "First video" }
       else
         match (env.queryVisibleOrdered sub.strategyId)[i - 1]? with
         | none => { canAccess := false, reason := "Video not found in strategy" }
         | some previousVideo =>
             if sub.completedVideos.contains previousVideo.id then
               { canAccess := true, reason := "Previous videos completed" }
             else
               { canAccess := false
                 reason := "You must complete the previous video first" }) := by
    simp [validateVideoAccess, hact, hlook, hstrat, hvis, hfind]
  rw [hstep]
  rcases hgate with h0 | ⟨prev, hpeq, hpmem⟩
  · subst h0; rfl
  · cases i with
    | zero => rfl
    | succ j =>
        simp only [Nat.succ_sub_one] at hpeq ⊢
        rw [show ((j + 1 == 0 : Bool)) = false from rfl]
        simp [hpeq, hpmem]

lemma validateVideoAccess_true_inv (env : VideoEnv) (sub : Subscription)
    (vid : String)
    (h : (validateVideoAccess env false (some sub) vid).canAccess = true) :
    ∃ vd, env.lookup vid = some vd ∧ vd.strategyId = sub.strategyId
      ∧ vd.isVisible = true
      ∧ ∃ i, (env.queryVisibleOrdered sub.strategyId).findIdx?
            (fun w => w.id == vid) = some i
        ∧ (i = 0 ∨ ∃ prev,
            (env.queryVisibleOrdered sub.strategyId)[i-1]? = some prev
              ∧ prev.id ∈ sub.completedVideos) := by
  unfold validateVideoAccess at h
  simp only [Bool.false_eq_true, if_false] at h
  split at h
  · simp at h
  · rename_i hlook
    split at h
    · simp at h
    · rename_i vd hvd
      split at h
      · simp at h
      · rename_i hstrat
        split at h
        · simp at h
        · rename_i hvis
          split at h
          · simp at h
          · rename_i i hfind
            refine ⟨vd, hvd, not_ne_iff.mp hstrat, ?_, i, hfind, ?_⟩
            · simpa using hvis
            · split at h
              · rename_i h0
                exact Or.inl (by simpa using h0)
              · split at h
                · simp at h
                · rename_i prev hprev
                  split at h
                  · rename_i hmem
                    exact Or.inr ⟨prev, hprev, by simpa using hmem⟩
                  · simp at h

lemma markVideoComplete_ok_inv (env : VideoEnv) (sub : Subscription)
    (vid : String) (s' : Subscription) (w : Bool)
    (h : markVideoComplete env false (some sub) vid = .ok s' w) :
    (s' = sub ∧ w = false ∧ vid ∈ sub.completedVideos)
    ∨ (w = true ∧ vid ∉ sub.completedVideos
        ∧ s'.completedVideos = sub.completedVideos ++ [vid]
        ∧ s'.status = sub.status ∧ s'.strategyId = sub.strategyId
        ∧ s'.totalVideos = sub.totalVideos
        ∧ s'.videoProgress = sub.videoProgress
        ∧ (validateVideoAccess env false (some sub) vid).canAccess = true) := by
  simp only [markVideoComplete] at h
  split at h
  · cases h
  · split at h
    · cases h
    · rename_i vd hvd
      split at h
      · cases h
      · rename_i hstrat
        split at h
        · cases h
        · rename_i hacc
          split at h
          · rename_i hnotin
            injection h with h1 h2
            subst h1; subst h2
            refine Or.inr ⟨rfl, by simpa using hnotin, rfl, rfl, rfl, rfl, rfl, ?_⟩
            simpa using hacc
          · rename_i hisin
            injection h with h1 h2
            subst h1; subst h2
            exact Or.inl ⟨rfl, rfl, by simpa using hisin⟩

/-- Under the closure invariant, repeating `markVideoComplete` for an
already-completed video succeeds without writing. -/
lemma markVideoComplete_mem_noop (env : VideoEnv) (sub : Subscription)
    (hact : sub.status = .ACTIVE) (hcl : completedClosed env sub)
    (vid : String) (hmem : vid ∈ sub.completedVideos) :
    markVideoComplete env false (some sub) vid = .ok sub false := by
  obtain ⟨vd, hlook, hstrat, hvis, i, hfind, hgate⟩ := hcl vid hmem
  have hacc := validateVideoAccess_true_of env sub vid hact vd hlook hstrat
    hvis i hfind hgate
  unfold markVideoComplete
  simp [hact, hlook, hstrat, hacc, hmem]

lemma runMarkVideoComplete_preserves (env : VideoEnv) (sub : Subscription)
    (hact : sub.status = .ACTIVE) (hcl : completedClosed env sub)
    (hnd : sub.completedVideos.Nodup) (vid : String) :
    (runMarkVideoComplete env sub vid).status = .ACTIVE
    ∧ completedClosed env (runMarkVideoComplete env sub vid)
    ∧ (runMarkVideoComplete env sub vid).completedVideos.Nodup := by
  unfold runMarkVideoComplete
  cases h : markVideoComplete env false (some sub) vid with
  | badRequest m => exact ⟨hact, hcl, hnd⟩
  | notFound m => exact ⟨hact, hcl, hnd⟩
  | ok s' w =>
      rcases markVideoComplete_ok_inv env sub vid s' w h with
        ⟨rfl, _, _⟩ | ⟨_, hnotin, hcv, hst, hsid, _, _, hacc⟩
      · exact ⟨hact, hcl, hnd⟩
      · refine ⟨hst ▸ hact, ?_, ?_⟩
        · intro u hu
          rw [hcv] at hu
          rcases List.mem_append.mp hu with hold | hnew
          · obtain ⟨vd, hlook, hstrat, hvis, i, hfind, hgate⟩ := hcl u hold
            refine ⟨vd, hlook, hsid ▸ hstrat, hvis, i, by rw [hsid]; exact hfind, ?_⟩
            rcases hgate with h0 | ⟨prev, hpeq, hpmem⟩
            · exact Or.inl h0
            · exact Or.inr ⟨prev, by rw [hsid]; exact hpeq,
                by rw [hcv]; exact List.mem_append_left _ hpmem⟩
          · have hu' : u = vid := by simpa using hnew
            subst hu'
            obtain ⟨vd, hlook, hstrat, hvis, i, hfind, hgate⟩ :=
              validateVideoAccess_true_inv env sub u hacc
            refine ⟨vd, hlook, hsid ▸ hstrat, hvis, i, by rw [hsid]; exact hfind, ?_⟩
            rcases hgate with h0 | ⟨prev, hpeq, hpmem⟩
            · exact Or.inl h0
            · exact Or.inr ⟨prev, by rw [hsid]; exact hpeq,
                by rw [hcv]; exact List.mem_append_left _ hpmem⟩
        · rw [hcv]
          apply List.Nodup.append hnd (List.nodup_singleton vid)
          simp [List.disjoint_singleton]
          exact hnotin

lemma foldl_runMarkVideoComplete_preserves (env : VideoEnv) :
    ∀ (calls : List String) (sub : Subscription),
      sub.status = .ACTIVE → completedClosed env sub →
      sub.completedVideos.Nodup →
      ((calls.foldl (runMarkVideoComplete env) sub).status = .ACTIVE
        ∧ completedClosed env (calls.foldl (runMarkVideoComplete env) sub)
        ∧ (calls.foldl (runMarkVideoComplete env) sub).completedVideos.Nodup) := by
  intro calls
  induction calls with
  | nil => intro sub hact hcl hnd; exact ⟨hact, hcl, hnd⟩
  | cons c rest ih =>
      intro sub hact hcl hnd
      obtain ⟨h1, h2, h3⟩ := runMarkVideoComplete_preserves env sub hact hcl hnd c
      exact ih (runMarkVideoComplete env sub c) h1 h2 h3

/-- C10: starting from an ACTIVE subscription with empty progress, after any
sequence of `markVideoComplete` calls the `completedVideos` list has no
duplicates, and re-calling `markVideoComplete` for any already-completed
video returns success while performing no write (the subscription state is
returned unchanged with `wrote = false`). -/
theorem markVideoComplete_idempotent (env : VideoEnv) (sub0 : Subscription)
    (h0 : sub0.completedVideos = []) (hact : sub0.status = .ACTIVE)
    (calls : List String) :
    (calls.foldl (runMarkVideoComplete env) sub0).completedVideos.Nodup
    ∧ ∀ vid ∈ (calls.foldl (runMarkVideoComplete env) sub0).completedVideos,
        markVideoComplete env false
            (some (calls.foldl (runMarkVideoComplete env) sub0)) vid
          = .ok (calls.foldl (runMarkVideoComplete env) sub0) false := by
  have hcl0 : completedClosed env sub0 := by
    intro vid hvid
    rw [h0] at hvid
    cases hvid
  have hnd0 : sub0.completedVideos.Nodup := by rw [h0]; exact List.nodup_nil
  obtain ⟨hfa, hfcl, hfnd⟩ :=
    foldl_runMarkVideoComplete_preserves env calls sub0 hact hcl0 hnd0
  exact ⟨hfnd, fun vid hmem =>
    markVideoComplete_mem_noop env _ hfa hfcl vid hmem⟩

/-- An ACTIVE subscription to strategy `s1` with no completed videos. -/
def c10Sub : Subscription :=
  { c6Sub with completedVideos := [], progressPercentage := 0 }

/-- Witness for `markVideoComplete_idempotent`: two calls completing `v1`
then `v2` in `gatingEnv`, then every completed video re-completes as a
no-op. -/
theorem markVideoComplete_idempotent_witness :
    c10Sub.completedVideos = [] ∧ c10Sub.status = .ACTIVE ∧
    ((["v1", "v2"].foldl (runMarkVideoComplete gatingEnv) c10Sub).completedVideos.Nodup
      ∧ ∀ vid ∈ (["v1", "v2"].foldl (runMarkVideoComplete gatingEnv) c10Sub).completedVideos,
          markVideoComplete gatingEnv false
              (some (["v1", "v2"].foldl (runMarkVideoComplete gatingEnv) c10Sub)) vid
            = .ok (["v1", "v2"].foldl (runMarkVideoComplete gatingEnv) c10Sub) false) :=
  ⟨rfl, rfl, markVideoComplete_idempotent gatingEnv c10Sub rfl rfl ["v1", "v2"]⟩

/-! ## Payment confirmation state machine
(subscriptions.service `createSubscription` / `confirmPayment`,
payments.service 3pay webhook `processVerifiedPayment`).

The store is projected onto the collections these claims are about:
`subscriptions`, `pending_payments` and `strategies`; wallet side effects
and the per-strategy video snapshot are not represented, since the claims
settled here are about subscription statuses and replay behaviour. -/

structure PendingPayment where
  id : String
  userId : String
  strategyId : String
  oldStrategyId : Option String
  currentSubscriptionId : Option String
  type : String
  status : String
  amount : ℚ
  threePayTransactionId : Option String
  subscriptionId : Option String
  deriving Repr, DecidableEq

structure Strategy where
  id : String
  name : String
  price : ℚ
  deriving Repr, DecidableEq

structure Db where
  subs : List Subscription
  pendings : List PendingPayment
  strategies : List Strategy
  deriving Repr, DecidableEq

/-- `subscriptions where userId == u and status == ACTIVE limit 1`. -/
def findActiveSub (db : Db) (userId : String) : Option Subscription :=
  db.subs.find? (fun s => s.userId == userId
    && s.status == SubscriptionStatus.ACTIVE)

/-- `subscriptions where userId == u and status == PENDING limit 1`. -/
def findPendingSub (db : Db) (userId : String) : Option Subscription :=
  db.subs.find? (fun s => s.userId == userId
    && s.status == SubscriptionStatus.PENDING)

def findStrategy (db : Db) (strategyId : String) : Option Strategy :=
  db.strategies.find? (fun st => st.id == strategyId)

/-- Update the subscription document with the given id. -/
def updateSub (db : Db) (subId : String) (f : Subscription → Subscription) : Db :=
  { db with subs := db.subs.map (fun s => if s.id == subId then f s else s) }

/-- Update a pending payment to `status: 'completed'` with the resulting
subscription id. -/
def markPendingCompleted (db : Db) (pendingId : String)
    (subId : Option String) : Db :=
  { db with pendings := db.pendings.map (fun p =>
      if p.id == pendingId then
        { p with status := "completed", subscriptionId := subId }
      else p) }

def thirtyDaysMs : ℤ := 30 * 24 * 60 * 60 * 1000

/-- A freshly created ACTIVE subscription document as written by
`createSubscription` (subscriptions.service lines 91–114). -/
def mkActiveSubscription (newId userId : String) (strat : Strategy)
    (now : ℤ) : Subscription :=
  { id := newId, userId := userId, strategyId := strat.id,
    strategyName := strat.name, strategyPrice := strat.price,
    status := .ACTIVE, startDate := now,
    endDate := some (now + thirtyDaysMs), duration := 30,
    videoProgress := [], completedVideos := [], totalVideos := 0,
    progressPercentage := 0, currentVideoId := none,
    amountPaid := strat.price, renewalCount := 0, expiredAt := none }

/-- Embeds `SubscriptionsService.createSubscription` (subscriptions.service
lines 30–139): rejects when the user already has an ACTIVE subscription,
rejects when the user has a PENDING subscription, otherwise inserts a new
ACTIVE subscription. -/
def createSubscription (db : Db) (newId userId strategyId : String)
    (now : ℤ) : Except String Db :=
  if (findActiveSub db userId).isSome then
    .error "User already has an active subscription"
  else if (db.subs.any (fun s => s.userId == userId
      && s.status == SubscriptionStatus.PENDING)) then
    .error "User has a pending subscription that needs renewal"
  else
    match findStrategy db strategyId with
    | none => .error "Strategy not found"
    | some strat =>
        .ok { db with subs := db.subs ++ [mkActiveSubscription newId userId strat now] }

/-- Embeds `initiateUserSubscription` (3pay variant, lines 768–930 of the
payments-era subscriptions service): rejects when the user already has an
ACTIVE or PENDING subscription, otherwise records a `pending_payments`
document of type `subscription` with status `waiting`, keyed by the
provider transaction id. -/
def initiateUserSubscription (db : Db) (userId strategyId transactionId : String) :
    Except String Db :=
  if (findActiveSub db userId).isSome then
    .error "You already have an active subscription"
  else if (db.subs.any (fun s => s.userId == userId
      && s.status == SubscriptionStatus.PENDING)) then
    .error "You have a pending subscription that needs renewal"
  else
    match findStrategy db strategyId with
    | none => .error "Strategy not found"
    | some strat =>
        .ok { db with pendings := db.pendings ++
          [{ id := "pending_3pay_" ++ transactionId, userId := userId,
             strategyId := strategyId, oldStrategyId := none,
             currentSubscriptionId := none, type := "subscription",
             status := "waiting", amount := strat.price,
             threePayTransactionId := some transactionId,
             subscriptionId := none }] }

/-- Embeds the 3pay webhook helper `processSubscriptionPayment`
(payments.service lines 1618–1671): creates an ACTIVE subscription for the
pending payment's user — with **no** check for an existing ACTIVE or
PENDING subscription. -/
def threePayProcessSubscriptionPayment (db : Db) (p : PendingPayment)
    (newSubId : String) (now : ℤ) : Db :=
  let strat := findStrategy db p.strategyId
  { db with subs := db.subs ++
      [{ id := newSubId, userId := p.userId, strategyId := p.strategyId,
         strategyName := ((strat.map (fun st => st.name)).getD "Unknown"),
         strategyPrice := ((strat.map (fun st => st.price)).getD 0),
         status := .ACTIVE, startDate := now,
         endDate := some (now + thirtyDaysMs), duration := 30,
         videoProgress := [], completedVideos := [], totalVideos := 0,
         progressPercentage := 0, currentVideoId := none,
         amountPaid := p.amount, renewalCount := 0, expiredAt := none }] }

/-- Embeds the 3pay webhook helper `processRenewalPayment` (payments.service
lines 1676–1727): reactivates the user's PENDING subscription for 30 days. -/
def threePayProcessRenewalPayment (db : Db) (p : PendingPayment) (now : ℤ) :
    Except String Db :=
  match findPendingSub db p.userId with
  | none => .error "No pending subscription found"
  | some pendingSub =>
      .ok (updateSub db pendingSub.id (fun s =>
        { s with status := .ACTIVE, endDate := some (now + thirtyDaysMs) }))

/-- Embeds the 3pay webhook helper `processUpgradePayment` (payments.service
lines 1732–1781): moves the referenced subscription to the new strategy,
ACTIVE, with a fresh 30-day period and `completedVideos` reset. -/
def threePayProcessUpgradePayment (db : Db) (p : PendingPayment) (now : ℤ) : Db :=
  let strat := findStrategy db p.strategyId
  updateSub db (p.currentSubscriptionId.getD "") (fun s =>
    { s with strategyId := p.strategyId,
             strategyName := ((strat.map (fun st => st.name)).getD ""),
             strategyPrice := ((strat.map (fun st => st.price)).getD 0),
             status := .ACTIVE, startDate := now,
             endDate := some (now + thirtyDaysMs),
             completedVideos := [] })

/-- Embeds the 3pay webhook entry `processVerifiedPayment` (payments.service
lines 1560–1613): finds the pending payment by provider transaction id,
**short-circuits when its status is already `completed`**, otherwise
dispatches on the payment type and finally marks the payment completed. -/
def processVerifiedPayment (db : Db) (transactionId newSubId : String)
    (now : ℤ) : Except String Db :=
  match db.pendings.find? (fun p =>
      p.threePayTransactionId == some transactionId) with
  | none => .error "Pending payment not found"
  | some p =>
      if p.status == "completed" then
        .ok db
      else do
        let db' ←
          if p.type == "subscription" then
            .ok (threePayProcessSubscriptionPayment db p newSubId now)
          else if p.type == "renewal" then
            threePayProcessRenewalPayment db p now
          else if p.type == "upgrade" || p.type == "downgrade" then
            .ok (threePayProcessUpgradePayment db p now)
          else
            .ok db
        .ok (markPendingCompleted db' p.id p.subscriptionId)

/-- Embeds `SubscriptionsService.confirmPayment` (subscriptions.service
lines 706–833): resolves the pending payment by document id and — without
checking whether its status is already `completed` — branches on the
payment type to mutate subscription state, then marks the payment
completed. -/
def confirmPayment (db : Db) (paymentId newSubId : String) (now : ℤ) :
    Except String Db :=
  let docId := if paymentId.startsWith "pending_" then paymentId
               else "pending_" ++ paymentId
  match db.pendings.find? (fun p => p.id == docId) with
  | none => .error "Payment not found"
  | some paymentData =>
      if (paymentData.type == "upgrade" || paymentData.type == "downgrade")
          && paymentData.oldStrategyId.isSome then
        match findActiveSub db paymentData.userId with
        | none => .error "No active subscription found to upgrade"
        | some existingSub =>
            let strat := findStrategy db paymentData.strategyId
            let db' := updateSub db existingSub.id (fun s =>
              { s with strategyId := paymentData.strategyId,
                       strategyName := ((strat.map (fun st => st.name)).getD ""),
                       strategyPrice := ((strat.map (fun st => st.price)).getD 0),
                       completedVideos := [] })
            .ok (markPendingCompleted db' docId (some existingSub.id))
      else if paymentData.type == "renewal" then
        match findPendingSub db paymentData.userId with
        | none => .error "No pending subscription found to renew"
        | some pendingSub =>
            let db' := updateSub db pendingSub.id (fun s =>
              { s with status := .ACTIVE, endDate := some (now + thirtyDaysMs) })
            .ok (markPendingCompleted db' docId (some pendingSub.id))
      else do
        let db' ← createSubscription db newSubId paymentData.userId
          paymentData.strategyId now
        .ok (markPendingCompleted db' docId (some newSubId))

/-- The number of ACTIVE-or-PENDING subscriptions a user holds. -/
def activePendingCount (db : Db) (userId : String) : ℕ :=
  (db.subs.filter (fun s => s.userId == userId
    && (s.status == SubscriptionStatus.ACTIVE
        || s.status == SubscriptionStatus.PENDING))).length

/-- An empty store with two strategies. -/
def c2Db0 : Db :=
  { subs := [], pendings := [],
    strategies := [{ id := "s1", name := "S1", price := 100 },
                   { id := "s2", name := "S2", price := 80 }] }

/-- C2: a valid operation sequence that ends with two ACTIVE subscriptions
for the same user.  The user initiates a 3pay subscription payment (the
guard passes: no subscription yet), an admin then creates a subscription
for the user, and finally the payment webhook is processed —
`processSubscriptionPayment` on the webhook path creates a second ACTIVE
subscription without re-checking the single-subscription rule. -/
theorem singleSubscription_invariant_violation :
    ∃ db3 : Db,
      (do
        let db1 ← initiateUserSubscription c2Db0 "u" "s1" "tx1"
        let db2 ← createSubscription db1 "subA" "u" "s2" 0
        processVerifiedPayment db2 "tx1" "subB" 0) = Except.ok db3
      ∧ activePendingCount db3 "u" = 2 :=
  ⟨_, rfl, rfl⟩

/-- The store for the replay scenario: user `u` holds one ACTIVE
subscription (after an upgrade to strategy `s2`, with video progress), and
the upgrade's pending payment has already been processed
(`status: 'completed'`). -/
def c4Db : Db :=
  { subs := [{ id := "subA", userId := "u", strategyId := "s2",
               strategyName := "S2", strategyPrice := 80,
               status := .ACTIVE, startDate := 0,
               endDate := some thirtyDaysMs, duration := 30,
               videoProgress := [], completedVideos := ["v1"], totalVideos := 3,
               progressPercentage := 33, currentVideoId := none,
               amountPaid := 80, renewalCount := 0, expiredAt := none }]
    pendings := [{ id := "pending_p1", userId := "u", strategyId := "s2",
                   oldStrategyId := some "s1",
                   currentSubscriptionId := some "subA",
                   type := "upgrade", status := "completed", amount := 80,
                   threePayTransactionId := some "tx0",
                   subscriptionId := some "subA" }]
    strategies := [{ id := "s1", name := "S1", price := 100 },
                   { id := "s2", name := "S2", price := 80 }] }

/-- C4: replay behaviour of the two confirmation paths on the same
already-`completed` pending payment.  The webhook path
(`processVerifiedPayment`) short-circuits and leaves the store untouched,
but `confirmPayment` performs a second subscription mutation: it succeeds
and resets the ACTIVE subscription's `completedVideos` from `["v1"]` to
`[]`, so replaying a completed payment is not idempotent there. -/
theorem confirmPayment_replay_mutates :
    processVerifiedPayment c4Db "tx0" "subZ" 0 = Except.ok c4Db
    ∧ ∃ db', confirmPayment c4Db "p1" "subB" 0 = Except.ok db'
        ∧ (findActiveSub c4Db "u").map (fun s => s.completedVideos) = some ["v1"]
        ∧ (findActiveSub db' "u").map (fun s => s.completedVideos) = some [] :=
  ⟨rfl, _, rfl, rfl, rfl⟩

end Respike
